import Mathlib

/-
Verification of the response-interception and middleware core of the
`goserve` static file server (src/goserve.go, with the earlier generation
in src/unnamed/part_000).

The embedding models:
  * HTTP headers as an association list (Go `map[string]string` /
    `http.Header`, single-valued);
  * the underlying `net/http` response writer as a record `BaseRW`
    tracking queued headers, the status lines actually emitted on the
    wire, and the body bytes, with the standard library's guard that a
    superfluous `WriteHeader` call is ignored and that a `Write` before
    `WriteHeader` implicitly sends status 200;
  * a handler as a straight-line list of response-writer `Action`s
    (set a status, write a body chunk, set or delete a header);
  * the interception layer of `StaticServeMux`: `intercept`,
    `interceptResponseWriter.WriteHeader` (whose `panic(h)` is modelled
    by discarding the remaining actions of the original handler, exactly
    what the recover in `interceptHandler` achieves), and
    `statusResponseWriter.WriteHeader`;
  * the middleware chain: `CustomHeadersHandler`, `GzipHandler` with
    `GzipResponseWriter`, and the `PreventListingDir` guard of
    `Serve.handler`;
  * the configuration checks (`Redirect.check`, `Serve.check`,
    `Listener.check`, `ServerConfig.check`), with `os.Stat` existence
    modelled as a function parameter.

All statuses are natural numbers except the `Status` field of
`statusResponseWriter`, which keeps the Go `int` (its negative branch is
part of the source).
-/

set_option autoImplicit false

namespace Goserve

/-- HTTP headers: an association list from header name to value, the
shallow model of Go `map[string]string` and of `http.Header` (for which
`Get` returns the first value, and the empty string when absent). -/
abbrev Headers := List (String × String)

/-- Model of `http.Header.Get`: first value bound to the name, `""` if absent. -/
def Headers.get (h : Headers) (k : String) : String :=
  match h.find? (fun p => p.fst == k) with
  | some p => p.snd
  | none => ""

/-- Model of `http.Header.Del`: remove every binding of the name. -/
def Headers.del (h : Headers) (k : String) : Headers :=
  h.filter (fun p => p.fst != k)

/-- Model of `http.Header.Set`: replace any binding of the name by the new value. -/
def Headers.set (h : Headers) (k v : String) : Headers :=
  (k, v) :: h.del k

/-- Model of `len(headers) > 0` check used by `Serve.handler` and `main`. -/
def Headers.isEmpty : Headers → Bool
  | [] => true
  | _ :: _ => false

/-- The state of the underlying `net/http` response writer: queued
headers, the status lines emitted on the wire, and the body sent so far. -/
structure BaseRW where
  headers : Headers
  statusLines : List Nat
  body : String
  deriving Repr, DecidableEq

/-- A fresh response writer at the start of an exchange. -/
def initRW : BaseRW := { headers := [], statusLines := [], body := "" }

/-- Whether the response header has already been flushed to the client. -/
def BaseRW.headerSent (w : BaseRW) : Bool := !w.statusLines.isEmpty

/-- Model of `net/http` `ResponseWriter.WriteHeader`: emits the status line once;
a second call is superfluous and ignored by the standard library. -/
def BaseRW.writeHeader (w : BaseRW) (code : Nat) : BaseRW :=
  if w.headerSent then w
  else { w with statusLines := w.statusLines ++ [code] }

/-- Model of `net/http` `ResponseWriter.Write`: a body write before any
`WriteHeader` implicitly sends status 200 first. -/
def BaseRW.write (w : BaseRW) (chunk : String) : BaseRW :=
  let w1 := if w.headerSent then w else w.writeHeader 200
  { w1 with body := w1.body ++ chunk }

/-- One step of a handler's interaction with its response writer. -/
inductive Action where
  | setStatus (code : Nat)
  | writeBody (chunk : String)
  | setHeader (name value : String)
  | delHeader (name : String)
  deriving Repr, DecidableEq

/-- A handler, modelled as the straight-line sequence of response-writer
calls it performs. -/
abbrev Handler := List Action

/-- Effect of one action on the plain (undecorated) response writer. -/
def BaseRW.applyPlain (w : BaseRW) : Action → BaseRW
  | Action.setStatus c => w.writeHeader c
  | Action.writeBody b => w.write b
  | Action.setHeader k v => { w with headers := w.headers.set k v }
  | Action.delHeader k => { w with headers := w.headers.del k }

/-- Run a handler directly against the plain response writer. -/
def applyPlainList (w : BaseRW) : Handler → BaseRW
  | [] => w
  | a :: rest => applyPlainList (w.applyPlain a) rest

/-- Model of `statusResponseWriter.WriteHeader` (src/goserve.go lines 318-327):
a negative stored status suppresses the call, a positive one replaces
the handler's status, zero forwards the handler's status. -/
def applyStatusAction (st : Int) (w : BaseRW) : Action → BaseRW
  | Action.setStatus c =>
      if st < 0 then w
      else if st > 0 then w.writeHeader st.toNat
      else w.writeHeader c
  | a => w.applyPlain a

/-- Run an override handler against `statusResponseWriter{w, st}`. -/
def runStatusActions (st : Int) (w : BaseRW) : Handler → BaseRW
  | [] => w
  | a :: rest => runStatusActions st (applyStatusAction st w a) rest

/-- Go `http.StatusText` for the error range consulted by the
interceptor (status >= 400); unknown codes map to the empty string. -/
def statusText : Nat → String
  | 400 => "Bad Request"
  | 401 => "Unauthorized"
  | 402 => "Payment Required"
  | 403 => "Forbidden"
  | 404 => "Not Found"
  | 405 => "Method Not Allowed"
  | 406 => "Not Acceptable"
  | 407 => "Proxy Authentication Required"
  | 408 => "Request Timeout"
  | 409 => "Conflict"
  | 410 => "Gone"
  | 411 => "Length Required"
  | 412 => "Precondition Failed"
  | 413 => "Request Entity Too Large"
  | 414 => "Request URI Too Long"
  | 415 => "Unsupported Media Type"
  | 416 => "Requested Range Not Satisfiable"
  | 417 => "Expectation Failed"
  | 418 => "I\x27m a teapot"
  | 422 => "Unprocessable Entity"
  | 423 => "Locked"
  | 424 => "Failed Dependency"
  | 426 => "Upgrade Required"
  | 428 => "Precondition Required"
  | 429 => "Too Many Requests"
  | 431 => "Request Header Fields Too Large"
  | 500 => "Internal Server Error"
  | 501 => "Not Implemented"
  | 502 => "Bad Gateway"
  | 503 => "Service Unavailable"
  | 504 => "Gateway Timeout"
  | 505 => "HTTP Version Not Supported"
  | 506 => "Variant Also Negotiates"
  | 507 => "Insufficient Storage"
  | 508 => "Loop Detected"
  | 510 => "Not Extended"
  | 511 => "Network Authentication Required"
  | _ => ""

/-- Go `http.Error`: sets `Content-Type: text/plain; charset=utf-8`,
writes the status line, then prints the message followed by a newline
(`fmt.Fprintln`). -/
def httpError (w : BaseRW) (msg : String) (code : Nat) : BaseRW :=
  let w1 : BaseRW :=
    { w with headers := w.headers.set "Content-Type" "text/plain; charset=utf-8" }
  (w1.writeHeader code).write (msg ++ "\x0a")

/-- Model of `StaticServeMux` (src/goserve.go lines 228-231): routes plus the
registered status-override handlers. -/
structure StaticServeMux where
  routes : List (String × Handler)
  errors : List (Nat × Handler)

/-- Lookup in the `errors` map (`s.errors[status]`). -/
def StaticServeMux.lookupError (m : StaticServeMux) (status : Nat) : Option Handler :=
  match m.errors.find? (fun p => p.fst == status) with
  | some p => some p.snd
  | none => none

/-- Model of `StaticServeMux.intercept` (src/goserve.go lines 249-261): run the
registered override through `statusResponseWriter` when one exists,
pass through non-error statuses, and answer error statuses without an
override via `http.Error` with the status text. Returns the updated
writer and whether the call was intercepted. -/
def StaticServeMux.intercept (m : StaticServeMux) (status : Nat) (w : BaseRW) :
    BaseRW × Bool :=
  match m.lookupError status with
  | some h => (runStatusActions (Int.ofNat status) w h, true)
  | none =>
      if status < 400 then (w, false)
      else (httpError w (statusText status) status, true)

/-- Run the original handler under `interceptResponseWriter`
(src/goserve.go lines 263-284 and 305-311): a status-setting call that
is intercepted panics with the writer, which the deferred recover in
`interceptHandler` absorbs — so the remaining actions of the original
handler are discarded; otherwise the status is forwarded to the
underlying writer and execution continues. -/
def runIntercepted (m : StaticServeMux) (w : BaseRW) : Handler → BaseRW
  | [] => w
  | Action.setStatus c :: rest =>
      match m.intercept c w with
      | (w1, true) => w1
      | (_, false) => runIntercepted m (w.writeHeader c) rest
  | a :: rest => runIntercepted m (w.applyPlain a) rest

/-- The request data consulted by this core. -/
structure Request where
  requestURI : String
  urlPath : String
  acceptEncoding : String
  protoMajor : Nat
  protoMinor : Nat
  deriving Repr, DecidableEq

/-- Model of `Request.ProtoAtLeast` from `net/http`. -/
def Request.protoAtLeast (r : Request) (major minor : Nat) : Bool :=
  r.protoMajor > major || (r.protoMajor == major && r.protoMinor >= minor)

/-- Model of `http.ServeMux` pattern matching: a pattern ending in `/` matches
every path it is a prefix of, any other pattern matches exactly. -/
def patternMatches (pat path : String) : Bool :=
  if pat.endsWith "/" then String.isPrefixOf pat path else pat == path

/-- Model of `http.ServeMux.Handler`: the handler of the longest matching
pattern, or the built-in 404 handler when no pattern matches. -/
def StaticServeMux.handlerFor (m : StaticServeMux) (path : String) : Handler :=
  let best := m.routes.foldl
    (fun acc p =>
      if patternMatches p.fst path then
        match acc with
        | none => some p
        | some b => if p.fst.length > b.fst.length then some p else some b
      else acc)
    none
  match best with
  | some p => p.snd
  | none => [Action.setHeader "Content-Type" "text/plain; charset=utf-8",
             Action.setStatus 404, Action.writeBody "404 page not found\x0a"]

/-- Model of `StaticServeMux.ServeHTTP` (src/goserve.go lines 286-297): the
wildcard request target `*` is answered 400 immediately (with
`Connection: close` on HTTP/1.1); any other request is dispatched to
the routed handler wrapped by the interception layer. -/
def StaticServeMux.serveHTTP (m : StaticServeMux) (r : Request) (w : BaseRW) : BaseRW :=
  if r.requestURI == "*" then
    let w1 :=
      if r.protoAtLeast 1 1 then { w with headers := w.headers.set "Connection" "close" }
      else w
    w1.writeHeader 400
  else
    runIntercepted m w (m.handlerFor r.urlPath)

/-- Model of `Error.handler` (src/goserve.go lines 217-225): delete the queued
`Content-Type` (to force re-detection), then `http.ServeFile` of the
target — modelled by its successful serving actions: set the detected
content type, write status 200, write the file content. -/
def Error.handler (ct content : String) : Handler :=
  [Action.delHeader "Content-Type", Action.setHeader "Content-Type" ct,
   Action.setStatus 200, Action.writeBody content]

/-- The header-injection loop of `CustomHeadersHandler`: set each
configured header only when it is currently absent. -/
def injectAbsent (hs : Headers) (w : Headers) : Headers :=
  hs.foldl
    (fun acc p => if Headers.get acc p.fst == "" then Headers.set acc p.fst p.snd else acc)
    w

/-- Model of `CustomHeadersHandler` (src/goserve.go lines 346-356): injects the
configured headers (set-if-absent) and then runs the inner handler. -/
def CustomHeadersHandler (inner : BaseRW → BaseRW) (hs : Headers) : BaseRW → BaseRW :=
  fun w => inner { w with headers := injectAbsent hs w.headers }

/-- The header-injection wiring of `main` (src/goserve.go lines 460-467)
and `Serve.handler` (lines 168-171): the per-listener injection wraps
the whole mux — outermost, so it runs first — while the per-serve
injection wraps the terminal handler; each layer is added only when its
header map is non-empty. -/
def headerInjectionStack (listenerHeaders serveHeaders : Headers)
    (terminal : BaseRW → BaseRW) : BaseRW → BaseRW :=
  let serveH :=
    if serveHeaders.isEmpty then terminal else CustomHeadersHandler terminal serveHeaders
  if listenerHeaders.isEmpty then serveH else CustomHeadersHandler serveH listenerHeaders

/-- Naive substring occurrence on character lists. -/
def charsContain (pat : List Char) : List Char → Bool
  | [] => pat.isEmpty
  | c :: rest => List.isPrefixOf pat (c :: rest) || charsContain pat rest

/-- Go `strings.Contains`. -/
def strContains (s pat : String) : Bool := charsContain pat.data s.data

/-- State of `GzipResponseWriter` plus the `gzip.Writer` it feeds: the
underlying writer, the plaintext accepted by the gzip stream so far,
and the content-type sniff flag. -/
structure GzipRW where
  base : BaseRW
  buffered : String
  gotContentType : Bool

/-- Model of `GzipResponseWriter.Write` (src/goserve.go lines 365-373) for body
writes — on the first chunk the content type is sniffed
(`http.DetectContentType`, the abstract `detect`) when none is set —
while header and status operations go to the embedded writer. -/
def GzipRW.applyAction (detect : String → String) (g : GzipRW) : Action → GzipRW
  | Action.writeBody b =>
      let g1 :=
        if !g.gotContentType then
          let base1 :=
            if Headers.get g.base.headers "Content-Type" == "" then
              { g.base with headers := g.base.headers.set "Content-Type" (detect b) }
            else g.base
          { g with base := base1, gotContentType := true }
        else g
      { g1 with buffered := g1.buffered ++ b }
  | Action.setStatus c => { g with base := g.base.writeHeader c }
  | Action.setHeader k v => { g with base := { g.base with headers := g.base.headers.set k v } }
  | Action.delHeader k => { g with base := { g.base with headers := g.base.headers.del k } }

/-- Run a handler against the gzip response writer. -/
def runGzipActions (detect : String → String) (g : GzipRW) : Handler → GzipRW
  | [] => g
  | a :: rest => runGzipActions detect (g.applyAction detect a) rest

/-- Model of `GzipHandler` (src/goserve.go lines 377-390): a client that does not
declare gzip support is served plainly; otherwise `Content-Encoding:
gzip` is set, the handler runs against the gzip writer, and the
deferred `gz.Close()` flushes the compressed stream to the underlying
writer. The gzip codec itself is `compress/gzip`, external to this
repository, modelled as the abstract whole-stream `compress`. -/
def GzipHandler (compress detect : String → String) (h : Handler)
    (r : Request) (w : BaseRW) : BaseRW :=
  if !strContains r.acceptEncoding "gzip" then applyPlainList w h
  else
    let w1 : BaseRW := { w with headers := w.headers.set "Content-Encoding" "gzip" }
    let g := runGzipActions detect { base := w1, buffered := "", gotContentType := false } h
    g.base.write (compress g.buffered)

/-- An entry of the served file tree: a regular file or a directory. -/
inductive FSEntry where
  | file (content : String)
  | dir
  deriving Repr, DecidableEq

/-- The file tree backing `http.Dir`. -/
abbrev FS := List (String × FSEntry)

/-- Model of `http.Dir.Open`: the entry at the name, when it exists. -/
def fsOpen (fs : FS) (name : String) : Option FSEntry :=
  match fs.find? (fun p => p.fst == name) with
  | some p => some p.snd
  | none => none

/-- Model of `PreventListingDir.Open` (src/goserve.go lines 336-342): panics —
modelled as `Except.error` — whenever the underlying open fails. -/
def preventOpen (fs : FS) (name : String) : Except Unit FSEntry :=
  match fsOpen fs name with
  | none => Except.error ()
  | some e => Except.ok e

/-- Outcome of the file-serving terminal handler. -/
inductive ServeOutcome where
  | served (content : String)
  | listing
  | notFound
  | forbidden
  deriving Repr, DecidableEq

/-- HTTP status of a file-serving outcome. -/
def ServeOutcome.status : ServeOutcome → Nat
  | ServeOutcome.served _ => 200
  | ServeOutcome.listing => 200
  | ServeOutcome.notFound => 404
  | ServeOutcome.forbidden => 403

/-- Model of `http.FileServer(http.Dir(target))`: a failed open is a 404, a
directory is served through its index file when present and listed
otherwise. -/
def plainFileServer (fs : FS) (path : String) : ServeOutcome :=
  match fsOpen fs path with
  | none => ServeOutcome.notFound
  | some (FSEntry.file c) => ServeOutcome.served c
  | some FSEntry.dir =>
      match fsOpen fs (path ++ "index.html") with
      | some (FSEntry.file c) => ServeOutcome.served c
      | _ => ServeOutcome.listing

/-- Model of `http.FileServer(&PreventListingDir{..})`: the same algorithm, but
every failed open panics out of the file server. -/
def preventFileServer (fs : FS) (path : String) : Except Unit ServeOutcome :=
  match preventOpen fs path with
  | Except.error e => Except.error e
  | Except.ok (FSEntry.file c) => Except.ok (ServeOutcome.served c)
  | Except.ok FSEntry.dir =>
      match preventOpen fs (path ++ "index.html") with
      | Except.error e => Except.error e
      | Except.ok (FSEntry.file c) => Except.ok (ServeOutcome.served c)
      | Except.ok FSEntry.dir => Except.ok ServeOutcome.listing

/-- The file-serving branches of `Serve.handler` (src/goserve.go lines
148-166): with `preventListing` the deferred recover turns the
`PreventListingDir` panic into a 403; without it the plain file server
runs unguarded. -/
def serveDirHandler (fs : FS) (preventListing : Bool) (path : String) : ServeOutcome :=
  if preventListing then
    match preventFileServer fs path with
    | Except.ok o => o
    | Except.error _ => ServeOutcome.forbidden
  else plainFileServer fs path

/-- Model of `Redirect` configuration entry (`from`, `to`, `status`). -/
structure Redirect where
  fromPath : String
  toPath : String
  withStatus : Int
  deriving Repr, DecidableEq

/-- Model of `Redirect.check` (src/goserve.go lines 188-198): the source assigns
its named result `ok` to false on a missing `from` or `to` path, but
the final statement returns the literal `true`, discarding `ok`. -/
def Redirect.check (r : Redirect) : Bool :=
  let ok : Bool := false
  let ok := if r.fromPath == "" then false else ok
  let ok := if r.toPath == "" then false else ok
  (fun _ => true) ok

/-- Model of `Listener` configuration entry. -/
structure Listener where
  protocol : String
  addr : String
  certFile : String
  keyFile : String
  headers : Headers
  gzip : Bool

/-- Model of `Listener.check` (src/goserve.go lines 86-107); `statExists` models
`os.Stat` succeeding on a path. -/
def Listener.check (statExists : String → Bool) (l : Listener) : Bool :=
  if l.protocol == "http" then
    if l.certFile != "" || l.keyFile != "" then false else true
  else if l.protocol == "https" then
    statExists l.certFile && statExists l.keyFile
  else false

/-- Model of `Serve` configuration entry of the later generation. -/
structure Serve where
  target : String
  path : String
  error : Int
  preventListing : Bool
  headers : Headers

/-- Model of `Serve.check` (src/goserve.go lines 124-139). -/
def Serve.check (s : Serve) : Bool :=
  let ok := true
  let ok := if s.path == "" then false else ok
  let ok := if s.error == 0 && s.target == "" then false else ok
  let ok := if s.error != 0 && s.target != "" then false else ok
  ok

/-- Model of `Error` configuration entry (status override). -/
structure ErrorCfg where
  status : Nat
  target : String

/-- Model of `ServerConfig`. -/
structure ServerConfig where
  listeners : List Listener
  serves : List Serve
  errors : List ErrorCfg
  redirects : List Redirect

/-- Model of `ServerConfig.check` (src/goserve.go lines 45-65): listeners must be
non-empty and each valid, serves must be non-empty and each valid, and
each redirect is checked in turn. -/
def ServerConfig.check (statExists : String → Bool) (c : ServerConfig) : Bool :=
  let ok := true
  let ok := if c.listeners.isEmpty then false else ok
  let ok := c.listeners.foldl (fun acc l => Listener.check statExists l && acc) ok
  let ok := if c.serves.isEmpty then false else ok
  let ok := c.serves.foldl (fun acc s => Serve.check s && acc) ok
  let ok := c.redirects.foldl (fun acc r => Redirect.check r && acc) ok
  ok

/-- A handler that never performs a status-setting call. -/
def noSetStatus : Handler → Bool
  | [] => true
  | Action.setStatus _ :: _ => false
  | _ :: rest => noSetStatus rest

/-- A handler that sets a status before writing any body byte (standard
HTTP response ordering, which `Error.handler` follows). -/
def setsStatusFirst : Handler → Bool
  | [] => false
  | Action.setStatus _ :: _ => true
  | Action.writeBody _ :: _ => false
  | _ :: rest => setsStatusFirst rest

/-- Concatenation of all body chunks a handler writes, in order. -/
def handlerBody : Handler → String
  | [] => ""
  | Action.writeBody b :: rest => b ++ handlerBody rest
  | _ :: rest => handlerBody rest

/-- A handler that neither sets nor deletes the given header name. -/
def headerUntouched (k : String) : Handler → Bool
  | [] => true
  | Action.setHeader k2 _ :: rest => (k2 != k) && headerUntouched k rest
  | Action.delHeader k2 :: rest => (k2 != k) && headerUntouched k rest
  | _ :: rest => headerUntouched k rest

/-- The handler of the minimal file-serving terminal: declare the
content type, send 200, write the file bytes. -/
def fileHandlerActions (ct content : String) : Handler :=
  [Action.setHeader "Content-Type" ct, Action.setStatus 200,
   Action.writeBody content]

@[simp] theorem writeHeader_headers (w : BaseRW) (c : Nat) :
    (w.writeHeader c).headers = w.headers := by
  unfold BaseRW.writeHeader; split <;> rfl

@[simp] theorem writeHeader_body (w : BaseRW) (c : Nat) :
    (w.writeHeader c).body = w.body := by
  unfold BaseRW.writeHeader; split <;> rfl

@[simp] theorem write_headers (w : BaseRW) (s : String) :
    (w.write s).headers = w.headers := by
  unfold BaseRW.write; dsimp only; split
  · rfl
  · simp

@[simp] theorem write_body (w : BaseRW) (s : String) :
    (w.write s).body = w.body ++ s := by
  unfold BaseRW.write; dsimp only; split
  · rfl
  · simp

theorem writeHeader_of_sent (w : BaseRW) (c : Nat) (h : w.headerSent = true) :
    w.writeHeader c = w := by
  unfold BaseRW.writeHeader; simp [h]

theorem write_statusLines_of_sent (w : BaseRW) (s : String) (h : w.headerSent = true) :
    (w.write s).statusLines = w.statusLines := by
  unfold BaseRW.write; simp [h]

theorem headerSent_of_ne (w : BaseRW) (h : w.statusLines ≠ []) :
    w.headerSent = true := by
  unfold BaseRW.headerSent
  cases hs : w.statusLines with
  | nil => exact absurd hs h
  | cons a t => rfl

theorem statusLines_of_not_sent (w : BaseRW) (h : w.headerSent = false) :
    w.statusLines = [] := by
  unfold BaseRW.headerSent at h
  cases hs : w.statusLines with
  | nil => rfl
  | cons a t => rw [hs] at h; simp at h

theorem writeHeader_statusLines_of_empty (w : BaseRW) (c : Nat)
    (h : w.statusLines = []) : (w.writeHeader c).statusLines = [c] := by
  unfold BaseRW.writeHeader BaseRW.headerSent
  rw [h]; rfl

@[simp] theorem get_set_self (h : Headers) (k v : String) :
    Headers.get (Headers.set h k v) k = v := by
  simp [Headers.get, Headers.set, List.find?]

theorem get_del_ne (h : Headers) (k k2 : String) (hne : k2 ≠ k) :
    Headers.get (Headers.del h k) k2 = Headers.get h k2 := by
  induction h with
  | nil => rfl
  | cons a t ih =>
    by_cases hak : a.fst = k
    · have h1 : (a.fst != k) = false := by simp [hak]
      have h2 : (a.fst == k2) = false := by
        simp only [beq_eq_false_iff_ne]
        rw [hak]; exact Ne.symm hne
      simp only [Headers.del, List.filter_cons, h1] at *
      simp only [Bool.false_eq_true, if_false]
      rw [ih]
      simp [Headers.get, List.find?, h2]
    · have h1 : (a.fst != k) = true := by simp [hak]
      simp only [Headers.del, List.filter_cons, h1, if_true] at *
      by_cases hk2 : a.fst = k2
      · simp [Headers.get, List.find?, hk2]
      · have h2 : (a.fst == k2) = false := by simp [hk2]
        simp [Headers.get, List.find?, h2] at *
        exact ih

theorem get_set_ne (h : Headers) (k v k2 : String) (hne : k2 ≠ k) :
    Headers.get (Headers.set h k v) k2 = Headers.get h k2 := by
  have h2 : (k == k2) = false := by
    simp only [beq_eq_false_iff_ne]; exact Ne.symm hne
  simp only [Headers.set, Headers.get, List.find?, h2]
  exact get_del_ne h k k2 hne

theorem applyStatusAction_headers (st : Int) (w : BaseRW) (a : Action) :
    (applyStatusAction st w a).headers
      = (match a with
         | Action.setHeader k v => w.headers.set k v
         | Action.delHeader k => w.headers.del k
         | _ => w.headers) := by
  cases a with
  | setStatus c =>
    simp only [applyStatusAction]
    split
    · rfl
    · split <;> simp
  | writeBody b => simp [applyStatusAction, BaseRW.applyPlain]
  | setHeader k v => rfl
  | delHeader k => rfl

theorem applyStatusAction_body (st : Int) (w : BaseRW) (a : Action) :
    (applyStatusAction st w a).body
      = w.body ++ (match a with | Action.writeBody b => b | _ => "") := by
  cases a with
  | setStatus c =>
    simp only [applyStatusAction]
    rw [String.append_empty]
    split
    · rfl
    · split <;> simp
  | writeBody b => simp [applyStatusAction, BaseRW.applyPlain]
  | setHeader k v => simp [applyStatusAction, BaseRW.applyPlain, String.append_empty]
  | delHeader k => simp [applyStatusAction, BaseRW.applyPlain, String.append_empty]

theorem applyStatusAction_statusLines_of_sent (st : Int) (w : BaseRW) (a : Action)
    (h : w.headerSent = true) :
    (applyStatusAction st w a).statusLines = w.statusLines := by
  cases a with
  | setStatus c =>
    simp only [applyStatusAction]
    split
    · rfl
    · split <;> rw [writeHeader_of_sent _ _ h]
  | writeBody b => exact write_statusLines_of_sent w b h
  | setHeader k v => rfl
  | delHeader k => rfl

theorem headerSent_congr (w w2 : BaseRW) (h : w2.statusLines = w.statusLines) :
    w2.headerSent = w.headerSent := by
  unfold BaseRW.headerSent; rw [h]

theorem runStatusActions_statusLines_of_sent (st : Int) (hs : Handler) :
    ∀ w : BaseRW, w.headerSent = true →
      (runStatusActions st w hs).statusLines = w.statusLines := by
  induction hs with
  | nil => intro w _; rfl
  | cons a rest ih =>
    intro w hw
    have h1 := applyStatusAction_statusLines_of_sent st w a hw
    have h2 : (applyStatusAction st w a).headerSent = true :=
      (headerSent_congr w _ h1).trans hw
    simp only [runStatusActions]
    rw [ih _ h2, h1]

theorem runStatusActions_body (st : Int) (hs : Handler) :
    ∀ w : BaseRW, (runStatusActions st w hs).body = w.body ++ handlerBody hs := by
  induction hs with
  | nil => intro w; simp [runStatusActions, handlerBody, String.append_empty]
  | cons a rest ih =>
    intro w
    simp only [runStatusActions]
    rw [ih]
    rw [applyStatusAction_body]
    cases a with
    | setStatus c => simp [handlerBody, String.append_empty]
    | writeBody b => simp [handlerBody, String.append_assoc]
    | setHeader k v => simp [handlerBody, String.append_empty]
    | delHeader k => simp [handlerBody, String.append_empty]

theorem runStatusActions_headers_untouched (st : Int) (k : String) (hs : Handler) :
    ∀ w : BaseRW, headerUntouched k hs = true →
      Headers.get (runStatusActions st w hs).headers k
        = Headers.get w.headers k := by
  induction hs with
  | nil => intro w _; rfl
  | cons a rest ih =>
    intro w hu
    simp only [runStatusActions]
    cases a with
    | setStatus c =>
      rw [ih _ hu]
      rw [applyStatusAction_headers]
    | writeBody b =>
      rw [ih _ hu]
      rw [applyStatusAction_headers]
    | setHeader k2 v =>
      simp only [headerUntouched, Bool.and_eq_true, bne_iff_ne, ne_eq] at hu
      rw [ih _ hu.2]
      rw [applyStatusAction_headers]
      exact get_set_ne w.headers k2 v k (Ne.symm hu.1)
    | delHeader k2 =>
      simp only [headerUntouched, Bool.and_eq_true, bne_iff_ne, ne_eq] at hu
      rw [ih _ hu.2]
      rw [applyStatusAction_headers]
      exact get_del_ne w.headers k2 k (Ne.symm hu.1)

theorem applyPlain_headers (w : BaseRW) (a : Action) :
    (w.applyPlain a).headers
      = (match a with
         | Action.setHeader k v => w.headers.set k v
         | Action.delHeader k => w.headers.del k
         | _ => w.headers) := by
  cases a <;> simp [BaseRW.applyPlain]

theorem applyPlainList_get_untouched (k : String) (acts : Handler) :
    ∀ w : BaseRW, headerUntouched k acts = true →
      Headers.get (applyPlainList w acts).headers k = Headers.get w.headers k := by
  induction acts with
  | nil => intro w _; rfl
  | cons a rest ih =>
    intro w hu
    simp only [applyPlainList]
    cases a with
    | setStatus c => rw [ih _ hu, applyPlain_headers]
    | writeBody b => rw [ih _ hu, applyPlain_headers]
    | setHeader k2 v =>
      simp only [headerUntouched, Bool.and_eq_true, bne_iff_ne, ne_eq] at hu
      rw [ih _ hu.2, applyPlain_headers]
      exact get_set_ne w.headers k2 v k (Ne.symm hu.1)
    | delHeader k2 =>
      simp only [headerUntouched, Bool.and_eq_true, bne_iff_ne, ne_eq] at hu
      rw [ih _ hu.2, applyPlain_headers]
      exact get_del_ne w.headers k2 k (Ne.symm hu.1)

theorem runIntercepted_append_noStatus (m : StaticServeMux) :
    ∀ pre : Handler, noSetStatus pre = true →
    ∀ (w : BaseRW) (rest : Handler),
      runIntercepted m w (pre ++ rest)
        = runIntercepted m (applyPlainList w pre) rest := by
  intro pre
  induction pre with
  | nil => intro _ w rest; rfl
  | cons a t ih =>
    intro hpre w rest
    cases a with
    | setStatus c => simp [noSetStatus] at hpre
    | writeBody b =>
      simp only [noSetStatus] at hpre
      simp only [List.cons_append, runIntercepted, applyPlainList]
      exact ih hpre _ rest
    | setHeader k v =>
      simp only [noSetStatus] at hpre
      simp only [List.cons_append, runIntercepted, applyPlainList]
      exact ih hpre _ rest
    | delHeader k =>
      simp only [noSetStatus] at hpre
      simp only [List.cons_append, runIntercepted, applyPlainList]
      exact ih hpre _ rest

theorem runIntercepted_setStatus_override (m : StaticServeMux) (c : Nat)
    (h : Handler) (hl : m.lookupError c = some h) (w : BaseRW) (post : Handler) :
    runIntercepted m w (Action.setStatus c :: post)
      = runStatusActions (Int.ofNat c) w h := by
  simp [runIntercepted, StaticServeMux.intercept, hl]

theorem len_writeHeader (w : BaseRW) (c : Nat) (h : w.statusLines.length ≤ 1) :
    ((w.writeHeader c).statusLines).length ≤ 1 := by
  unfold BaseRW.writeHeader
  split
  · exact h
  · next hns =>
    simp only [Bool.not_eq_true] at hns
    rw [statusLines_of_not_sent w hns]
    simp

theorem len_write (w : BaseRW) (s : String) (h : w.statusLines.length ≤ 1) :
    ((w.write s).statusLines).length ≤ 1 := by
  unfold BaseRW.write
  dsimp only
  split
  · exact h
  · exact len_writeHeader w 200 h

theorem len_applyPlain (w : BaseRW) (a : Action) (h : w.statusLines.length ≤ 1) :
    ((w.applyPlain a).statusLines).length ≤ 1 := by
  cases a with
  | setStatus c => exact len_writeHeader w c h
  | writeBody b => exact len_write w b h
  | setHeader k v => exact h
  | delHeader k => exact h

theorem len_applyStatusAction (st : Int) (w : BaseRW) (a : Action)
    (h : w.statusLines.length ≤ 1) :
    ((applyStatusAction st w a).statusLines).length ≤ 1 := by
  cases a with
  | setStatus c =>
    simp only [applyStatusAction]
    split
    · exact h
    · split
      · exact len_writeHeader w _ h
      · exact len_writeHeader w _ h
  | writeBody b => exact len_write w b h
  | setHeader k v => exact h
  | delHeader k => exact h

theorem len_runStatusActions (st : Int) (hs : Handler) :
    ∀ w : BaseRW, w.statusLines.length ≤ 1 →
      ((runStatusActions st w hs).statusLines).length ≤ 1 := by
  induction hs with
  | nil => intro w h; exact h
  | cons a rest ih =>
    intro w h
    simp only [runStatusActions]
    exact ih _ (len_applyStatusAction st w a h)

theorem len_httpError (w : BaseRW) (msg : String) (code : Nat)
    (h : w.statusLines.length ≤ 1) :
    ((httpError w msg code).statusLines).length ≤ 1 := by
  unfold httpError
  exact len_write _ _ (len_writeHeader _ _ h)

theorem len_intercept (m : StaticServeMux) (c : Nat) (w : BaseRW)
    (h : w.statusLines.length ≤ 1) :
    (((m.intercept c w).fst).statusLines).length ≤ 1 := by
  unfold StaticServeMux.intercept
  cases hl : m.lookupError c with
  | some hh => exact len_runStatusActions _ hh w h
  | none =>
    dsimp only
    split
    · exact h
    · exact len_httpError w _ c h

theorem len_runIntercepted (m : StaticServeMux) (as : Handler) :
    ∀ w : BaseRW, w.statusLines.length ≤ 1 →
      ((runIntercepted m w as).statusLines).length ≤ 1 := by
  induction as with
  | nil => intro w h; exact h
  | cons a rest ih =>
    intro w h
    cases a with
    | setStatus c =>
      have hi := len_intercept m c w h
      simp only [runIntercepted]
      cases he : m.intercept c w with
      | mk w1 b =>
        rw [he] at hi
        cases b
        · exact ih _ (len_writeHeader w c h)
        · exact hi
    | writeBody b =>
      simp only [runIntercepted]
      exact ih _ (len_applyPlain w _ h)
    | setHeader k v =>
      simp only [runIntercepted]
      exact ih _ (len_applyPlain w _ h)
    | delHeader k =>
      simp only [runIntercepted]
      exact ih _ (len_applyPlain w _ h)

theorem runStatusActions_first_status (c : Nat) (hc : 0 < c) :
    ∀ (hs : Handler) (w : BaseRW), w.statusLines = [] → setsStatusFirst hs = true →
      (runStatusActions (Int.ofNat c) w hs).statusLines = [c] := by
  intro hs
  induction hs with
  | nil => intro w _ hf; simp [setsStatusFirst] at hf
  | cons a rest ih =>
    intro w hw hf
    cases a with
    | setStatus k =>
      have hstep : applyStatusAction (Int.ofNat c) w (Action.setStatus k)
          = w.writeHeader c := by
        simp only [applyStatusAction, Int.ofNat_eq_coe]
        rw [if_neg (by omega), if_pos (by omega)]
        congr 1
      have h2 : (w.writeHeader c).statusLines = [c] :=
        writeHeader_statusLines_of_empty w c hw
      simp only [runStatusActions, hstep]
      rw [runStatusActions_statusLines_of_sent _ rest _
        (headerSent_of_ne _ (by rw [h2]; simp))]
      exact h2
    | writeBody b => simp [setsStatusFirst] at hf
    | setHeader k v =>
      simp only [setsStatusFirst] at hf
      simp only [runStatusActions]
      exact ih _ hw hf
    | delHeader k =>
      simp only [setsStatusFirst] at hf
      simp only [runStatusActions]
      exact ih _ hw hf

/-- A mux with no registered overrides. -/
def emptyMux : StaticServeMux := { routes := [], errors := [] }

/-- A mux with an override for status 500. -/
def mux500 : StaticServeMux :=
  { routes := [], errors := [(500, Error.handler "text/html" "oops")] }

/-- Claim C1: for every request whose handler sets a status code that has
a registered override, the client receives the override handler's body,
and none of the original handler's writes issued after the
status-setting call reach the client — the response equals the override
handler's run over the state reached before the status call, for every
`post` continuation of the original handler, and its body extends the
pre-status body exactly by the override handler's body. -/
theorem intercept_substitutes_override (m : StaticServeMux) (c : Nat)
    (h : Handler) (pre post : Handler) (w : BaseRW)
    (hl : m.lookupError c = some h) (hpre : noSetStatus pre = true) :
    runIntercepted m w (pre ++ Action.setStatus c :: post)
        = runStatusActions (Int.ofNat c) (applyPlainList w pre) h
    ∧ (runIntercepted m w (pre ++ Action.setStatus c :: post)).body
        = (applyPlainList w pre).body ++ handlerBody h := by
  have e1 := runIntercepted_append_noStatus m pre hpre w (Action.setStatus c :: post)
  have e2 := runIntercepted_setStatus_override m c h hl (applyPlainList w pre) post
  refine ⟨e1.trans e2, ?_⟩
  rw [e1, e2, runStatusActions_body]

/-- Witness for C1 at a concrete mux, prefix and continuation. -/
theorem intercept_substitutes_override_witness :
    runIntercepted mux500 initRW
        ([Action.setHeader "A" "1"] ++ Action.setStatus 500 :: [Action.writeBody "junk"])
        = runStatusActions (Int.ofNat 500)
            (applyPlainList initRW [Action.setHeader "A" "1"])
            (Error.handler "text/html" "oops")
    ∧ (runIntercepted mux500 initRW
          ([Action.setHeader "A" "1"] ++ Action.setStatus 500 :: [Action.writeBody "junk"])).body
        = (applyPlainList initRW [Action.setHeader "A" "1"]).body
            ++ handlerBody (Error.handler "text/html" "oops") :=
  intercept_substitutes_override mux500 500 (Error.handler "text/html" "oops")
    [Action.setHeader "A" "1"] [Action.writeBody "junk"] initRW
    (by decide) (by decide)

/-- Claim C4: setting a status a second time after the response header
has been sent is a no-op — the wire never carries more than one status
line in any interception-layer run, and a `WriteHeader` on an
already-sent underlying writer leaves it unchanged (no error channel
exists for the caller: the operation is total). -/
theorem second_status_noop (m : StaticServeMux) (as : Handler) (w : BaseRW)
    (h : w.statusLines.length ≤ 1) :
    ((runIntercepted m w as).statusLines).length ≤ 1
    ∧ (w.headerSent = true → ∀ c, w.writeHeader c = w) := by
  refine ⟨len_runIntercepted m as w h, ?_⟩
  intro hs c
  exact writeHeader_of_sent w c hs

/-- Witness for C4 on a writer whose header is already sent. -/
theorem second_status_noop_witness :
    ((runIntercepted emptyMux { headers := [], statusLines := [200], body := "" }
        [Action.setStatus 404]).statusLines).length ≤ 1
    ∧ (({ headers := [], statusLines := [200], body := "" } : BaseRW).headerSent = true →
        ∀ c, ({ headers := [], statusLines := [200], body := "" } : BaseRW).writeHeader c
          = { headers := [], statusLines := [200], body := "" }) :=
  second_status_noop emptyMux [Action.setStatus 404]
    { headers := [], statusLines := [200], body := "" } (by decide)

/-- Claim C5: in the later generation's preserve-original mode, for
every intercepted status `c` with a registered override, the status
sent to the client is the original `c`, regardless of which statuses
the override handler attempts to set through its restricted sink
(`statusResponseWriter` carries a positive stored status, and the
override sets a status before writing body bytes). -/
theorem override_preserves_status (m : StaticServeMux) (c : Nat) (h : Handler)
    (post : Handler) (w : BaseRW) (hc : 0 < c) (hl : m.lookupError c = some h)
    (hf : setsStatusFirst h = true) (hw : w.statusLines = []) :
    (runIntercepted m w (Action.setStatus c :: post)).statusLines = [c] := by
  rw [runIntercepted_setStatus_override m c h hl w post]
  exact runStatusActions_first_status c hc h w hw hf

/-- Witness for C5: the override attempts status 200 yet 500 reaches the
client. -/
theorem override_preserves_status_witness :
    (runIntercepted mux500 initRW
        (Action.setStatus 500 :: [Action.writeBody "orig"])).statusLines = [500] :=
  override_preserves_status mux500 500 (Error.handler "text/html" "oops")
    [Action.writeBody "orig"] initRW (by decide) (by decide) (by decide) (by decide)

/-- Counterexample to C2 as stated: at status 404 with no registered
override, the body the client receives is not the bare reason phrase
(Go `http.Error` prints it with `Fprintln`, appending a newline) and
the Content-Type is not the bare `text/plain` (the source sets
`text/plain; charset=utf-8`). -/
theorem unmatched_error_counterexample :
    (runIntercepted emptyMux initRW [Action.setStatus 404]).statusLines = [404]
    ∧ (runIntercepted emptyMux initRW [Action.setStatus 404]).body ≠ "Not Found"
    ∧ Headers.get (runIntercepted emptyMux initRW [Action.setStatus 404]).headers
        "Content-Type" ≠ "text/plain" := by
  decide

/-- Claim C2 (amended): for every status `c` in [400,599] with no
registered override, the response carries status `c`, a body equal to
the standard reason phrase for `c` followed by a newline, and
Content-Type `text/plain; charset=utf-8`. -/
theorem unmatched_error_status_body (m : StaticServeMux) (c : Nat)
    (h4 : 400 ≤ c) (h5 : c ≤ 599) (hl : m.lookupError c = none) :
    (runIntercepted m initRW [Action.setStatus c]).statusLines = [c]
    ∧ (runIntercepted m initRW [Action.setStatus c]).body = statusText c ++ "\x0a"
    ∧ Headers.get (runIntercepted m initRW [Action.setStatus c]).headers
        "Content-Type" = "text/plain; charset=utf-8" := by
  have hnl : ¬ c < 400 := by omega
  have hrun : runIntercepted m initRW [Action.setStatus c]
      = httpError initRW (statusText c) c := by
    simp [runIntercepted, StaticServeMux.intercept, hl, hnl]
  rw [hrun]
  unfold httpError
  refine ⟨?_, ?_, ?_⟩
  · rw [write_statusLines_of_sent]
    · exact writeHeader_statusLines_of_empty _ c rfl
    · exact headerSent_of_ne _ (by rw [writeHeader_statusLines_of_empty _ c rfl]; simp)
  · rw [write_body, writeHeader_body]
    exact String.empty_append _
  · rw [write_headers, writeHeader_headers]
    exact get_set_self _ _ _

/-- Witness for the amended C2 at status 404. -/
theorem unmatched_error_status_body_witness :
    (runIntercepted emptyMux initRW [Action.setStatus 404]).statusLines = [404]
    ∧ (runIntercepted emptyMux initRW [Action.setStatus 404]).body
        = statusText 404 ++ "\x0a"
    ∧ Headers.get (runIntercepted emptyMux initRW [Action.setStatus 404]).headers
        "Content-Type" = "text/plain; charset=utf-8" :=
  unmatched_error_status_body emptyMux 404 (by decide) (by decide) (by decide)

/-- A mux whose 404 override serves a custom error page. -/
def mux404 : StaticServeMux :=
  { routes := [], errors := [(404, Error.handler "text/html" "custom404")] }

/-- Counterexample to C3 as stated: queued headers are not all cleared
on interception — a header `X-Leak: 1` queued by the original handler
before its intercepted 404 still appears in the substituted response
(the later generation's `Error.handler` deletes only `Content-Type`). -/
theorem stale_header_leak_counterexample :
    mux404.lookupError 404 = some (Error.handler "text/html" "custom404")
    ∧ Headers.get (runIntercepted mux404 initRW
        [Action.setHeader "X-Leak" "1", Action.setStatus 404]).headers "X-Leak" = "1"
    ∧ ("1" : String) ≠ "" := by
  decide

/-- Claim C3 (amended): on every interception whose override is the
later generation's `Error.handler`, the `Content-Type` queued by the
original handler is cleared before the override writes its own — the
substituted response carries the override's content type — while every
other header queued by the original handler is left in place. -/
theorem error_override_clears_content_type (m : StaticServeMux) (c : Nat)
    (ct content : String) (pre post : Handler) (w : BaseRW)
    (hl : m.lookupError c = some (Error.handler ct content))
    (hpre : noSetStatus pre = true) :
    Headers.get (runIntercepted m w (pre ++ Action.setStatus c :: post)).headers
        "Content-Type" = ct
    ∧ ∀ k, k ≠ "Content-Type" →
        Headers.get (runIntercepted m w (pre ++ Action.setStatus c :: post)).headers k
          = Headers.get (applyPlainList w pre).headers k := by
  have e1 := runIntercepted_append_noStatus m pre hpre w (Action.setStatus c :: post)
  have e2 := runIntercepted_setStatus_override m c _ hl (applyPlainList w pre) post
  have hh : (runStatusActions (Int.ofNat c) (applyPlainList w pre)
        (Error.handler ct content)).headers
      = Headers.set (Headers.del (applyPlainList w pre).headers "Content-Type")
          "Content-Type" ct := by
    simp only [Error.handler, runStatusActions]
    simp only [applyStatusAction_headers]
  rw [e1, e2, hh]
  refine ⟨get_set_self _ _ _, ?_⟩
  intro k hk
  rw [get_set_ne _ _ _ _ hk, get_del_ne _ _ _ hk]

/-- Witness for the amended C3: the override's content type replaces the
original, and the leaked header keeps its original value. -/
theorem error_override_clears_content_type_witness :
    Headers.get (runIntercepted mux404 initRW
        ([Action.setHeader "X-Leak" "1"] ++ Action.setStatus 404 :: [])).headers
        "Content-Type" = "text/html"
    ∧ Headers.get (runIntercepted mux404 initRW
          ([Action.setHeader "X-Leak" "1"] ++ Action.setStatus 404 :: [])).headers
          "X-Leak"
        = Headers.get (applyPlainList initRW [Action.setHeader "X-Leak" "1"]).headers
            "X-Leak" :=
  ⟨(error_override_clears_content_type mux404 404 "text/html" "custom404"
      [Action.setHeader "X-Leak" "1"] [] initRW (by decide) (by decide)).1,
   (error_override_clears_content_type mux404 404 "text/html" "custom404"
      [Action.setHeader "X-Leak" "1"] [] initRW (by decide) (by decide)).2
     "X-Leak" (by decide)⟩

/-- Counterexample to C6 as stated: with a per-listener header `X: L`
and a per-serve header `X: S`, the client observes `L` — the
per-listener injection wraps outermost, so it runs first, and the
per-serve set-if-absent then finds the name taken. -/
theorem per_listener_header_wins_counterexample :
    Headers.get ((headerInjectionStack [("X", "L")] [("X", "S")]
        (fun w0 => w0) initRW).headers) "X" = "L"
    ∧ ("L" : String) ≠ "S" := by
  decide

/-- Claim C6 (amended): when a per-listener injected header and a
per-serve injected header are configured for the same name, the value
the client observes is the per-listener one — both injections are
set-if-absent and the per-listener layer runs first — provided the
terminal handler itself leaves that header name untouched. -/
theorem per_listener_header_wins (k vl vs : String) (acts : Handler) (w : BaseRW)
    (hvl : vl ≠ "") (hw : Headers.get w.headers k = "")
    (hacts : headerUntouched k acts = true) :
    Headers.get ((headerInjectionStack [(k, vl)] [(k, vs)]
        (fun w0 => applyPlainList w0 acts) w).headers) k = vl := by
  have hvlb : (vl == "") = false := by
    simp only [beq_eq_false_iff_ne]; exact hvl
  have hwb : (Headers.get w.headers k == "") = true := by rw [hw]; rfl
  have s1 : injectAbsent [(k, vl)] w.headers = Headers.set w.headers k vl := by
    simp only [injectAbsent, List.foldl, hwb, if_true]
  have s2 : injectAbsent [(k, vs)] (Headers.set w.headers k vl)
      = Headers.set w.headers k vl := by
    have h2 : (Headers.get (Headers.set w.headers k vl) k == "") = false := by
      rw [get_set_self]; exact hvlb
    simp only [injectAbsent, List.foldl, h2, Bool.false_eq_true, if_false]
  unfold headerInjectionStack CustomHeadersHandler
  simp only [Headers.isEmpty, Bool.false_eq_true, if_false]
  rw [applyPlainList_get_untouched k acts _ hacts]
  dsimp only
  rw [s1, s2]
  exact get_set_self _ _ _

/-- Witness for the amended C6. -/
theorem per_listener_header_wins_witness :
    Headers.get ((headerInjectionStack [("X", "L")] [("X", "S")]
        (fun w0 => applyPlainList w0 [Action.writeBody "hi"]) initRW).headers) "X"
      = "L" :=
  per_listener_header_wins "X" "L" "S" [Action.writeBody "hi"] initRW
    (by decide) (by decide) (by decide)

/-- Claim C7: against a gzip-enabled listener serving a known file, a
request whose Accept-Encoding contains `gzip` receives
`Content-Encoding: gzip` and a body that decompresses to the file's
bytes; a request without it receives the file's bytes unmodified and no
Content-Encoding header. The gzip codec is external
(`compress/gzip`), assumed lossless; the file's detected content type
is non-empty. -/
theorem gzip_roundtrip (compress decompress detect : String → String)
    (hround : ∀ s, decompress (compress s) = s)
    (ct content : String) (r : Request) (hct : ct ≠ "") :
    (strContains r.acceptEncoding "gzip" = true →
        Headers.get (GzipHandler compress detect (fileHandlerActions ct content)
            r initRW).headers "Content-Encoding" = "gzip"
        ∧ decompress (GzipHandler compress detect (fileHandlerActions ct content)
            r initRW).body = content)
    ∧ (strContains r.acceptEncoding "gzip" = false →
        (GzipHandler compress detect (fileHandlerActions ct content) r initRW).body
          = content
        ∧ Headers.get (GzipHandler compress detect (fileHandlerActions ct content)
            r initRW).headers "Content-Encoding" = "") := by
  have hctb : (ct == "") = false := by
    simp only [beq_eq_false_iff_ne]; exact hct
  constructor
  · intro hacc
    have hrun : GzipHandler compress detect (fileHandlerActions ct content) r initRW
        = { headers := [("Content-Type", ct), ("Content-Encoding", "gzip")],
            statusLines := [200], body := compress content } := by
      unfold GzipHandler
      rw [hacc]
      simp only [Bool.not_true, Bool.false_eq_true, if_false]
      simp [fileHandlerActions, runGzipActions, GzipRW.applyAction, Headers.set,
        Headers.del, Headers.get, BaseRW.writeHeader, BaseRW.write, BaseRW.headerSent,
        initRW, hctb, String.empty_append]
    rw [hrun]
    exact ⟨rfl, hround content⟩
  · intro hacc
    have hrun : GzipHandler compress detect (fileHandlerActions ct content) r initRW
        = { headers := [("Content-Type", ct)], statusLines := [200],
            body := content } := by
      unfold GzipHandler
      rw [hacc]
      simp [fileHandlerActions, applyPlainList, BaseRW.applyPlain, Headers.set,
        Headers.del, BaseRW.writeHeader, BaseRW.write, BaseRW.headerSent, initRW,
        String.empty_append]
    rw [hrun]
    exact ⟨rfl, rfl⟩

/-- Requests used to witness the two compression branches. -/
def reqGzip : Request :=
  { requestURI := "/f", urlPath := "/f", acceptEncoding := "gzip",
    protoMajor := 1, protoMinor := 1 }

def reqPlain : Request :=
  { requestURI := "/f", urlPath := "/f", acceptEncoding := "",
    protoMajor := 1, protoMinor := 1 }

/-- Witness for C7 with the identity codec on both branches. -/
theorem gzip_roundtrip_witness :
    (Headers.get (GzipHandler (fun s => s) (fun _ => "text/plain")
        (fileHandlerActions "text/css" "body") reqGzip initRW).headers
        "Content-Encoding" = "gzip"
      ∧ (fun s => s) (GzipHandler (fun s => s) (fun _ => "text/plain")
          (fileHandlerActions "text/css" "body") reqGzip initRW).body = "body")
    ∧ ((GzipHandler (fun s => s) (fun _ => "text/plain")
          (fileHandlerActions "text/css" "body") reqPlain initRW).body = "body"
      ∧ Headers.get (GzipHandler (fun s => s) (fun _ => "text/plain")
          (fileHandlerActions "text/css" "body") reqPlain initRW).headers
          "Content-Encoding" = "") :=
  ⟨(gzip_roundtrip (fun s => s) (fun s => s) (fun _ => "text/plain")
      (fun _ => rfl) "text/css" "body" reqGzip (by decide)).1 (by decide),
   (gzip_roundtrip (fun s => s) (fun s => s) (fun _ => "text/plain")
      (fun _ => rfl) "text/css" "body" reqPlain (by decide)).2 (by decide)⟩

/-- Claim C8: a request whose target is the wildcard form `*` is
answered 400 immediately — the response does not depend on the
registered routes or overrides, no handler body is written, and the
status sent is 400. -/
theorem wildcard_immediate_400 (m m2 : StaticServeMux) (r : Request) (w : BaseRW)
    (h : r.requestURI = "*") :
    m.serveHTTP r w = m2.serveHTTP r w
    ∧ (m.serveHTTP r w).body = w.body
    ∧ (w.statusLines = [] → (m.serveHTTP r w).statusLines = [400]) := by
  have hb : (r.requestURI == "*") = true := by rw [h]; rfl
  refine ⟨?_, ?_, ?_⟩
  · unfold StaticServeMux.serveHTTP
    simp only [hb, if_true]
  · unfold StaticServeMux.serveHTTP
    simp only [hb, if_true]
    split <;> simp
  · intro hw
    unfold StaticServeMux.serveHTTP
    simp only [hb, if_true]
    split
    · exact writeHeader_statusLines_of_empty _ 400 hw
    · exact writeHeader_statusLines_of_empty _ 400 hw

/-- The wildcard request used to witness C8. -/
def reqStar : Request :=
  { requestURI := "*", urlPath := "*", acceptEncoding := "",
    protoMajor := 1, protoMinor := 1 }

/-- Witness for C8 on two different muxes. -/
theorem wildcard_immediate_400_witness :
    emptyMux.serveHTTP reqStar initRW = mux404.serveHTTP reqStar initRW
    ∧ (emptyMux.serveHTTP reqStar initRW).body = initRW.body
    ∧ (initRW.statusLines = [] →
        (emptyMux.serveHTTP reqStar initRW).statusLines = [400]) :=
  wildcard_immediate_400 emptyMux mux404 reqStar initRW (by decide)

/-- Claim C9: under a serve with `preventListing`, every failed file
open — including a request for a file that simply does not exist —
produces a 403, where the plain file server would produce a 404. -/
theorem prevent_listing_forbidden (fs : FS) (path : String)
    (h : fsOpen fs path = none) :
    serveDirHandler fs true path = ServeOutcome.forbidden
    ∧ serveDirHandler fs false path = ServeOutcome.notFound
    ∧ (serveDirHandler fs true path).status = 403 := by
  have h1 : serveDirHandler fs true path = ServeOutcome.forbidden := by
    simp [serveDirHandler, preventFileServer, preventOpen, h]
  have h2 : serveDirHandler fs false path = ServeOutcome.notFound := by
    simp [serveDirHandler, plainFileServer, h]
  exact ⟨h1, h2, by rw [h1]; rfl⟩

/-- Witness for C9 on a one-file tree and a missing path. -/
theorem prevent_listing_forbidden_witness :
    serveDirHandler [("/a", FSEntry.file "x")] true "/missing"
        = ServeOutcome.forbidden
    ∧ serveDirHandler [("/a", FSEntry.file "x")] false "/missing"
        = ServeOutcome.notFound
    ∧ (serveDirHandler [("/a", FSEntry.file "x")] true "/missing").status = 403 :=
  prevent_listing_forbidden [("/a", FSEntry.file "x")] "/missing" (by decide)

/-- Claim C10: `Redirect.check` returns true for every redirect entry,
including ones with empty `from` or `to`, so redirects never make
`ServerConfig.check` fail — the configuration check is unchanged when
all redirects are removed. -/
theorem redirect_check_always_true :
    (∀ r : Redirect, Redirect.check r = true)
    ∧ ∀ (statExists : String → Bool) (c : ServerConfig),
        ServerConfig.check statExists c
          = ServerConfig.check statExists
              { listeners := c.listeners, serves := c.serves, errors := c.errors,
                redirects := [] } := by
  have hr : ∀ r : Redirect, Redirect.check r = true := fun r => rfl
  have hfold : ∀ (rs : List Redirect) (b : Bool),
      rs.foldl (fun acc r => Redirect.check r && acc) b = b := by
    intro rs
    induction rs with
    | nil => intro b; rfl
    | cons a t ih =>
      intro b
      simp only [List.foldl, hr a, Bool.true_and]
      exact ih b
  refine ⟨hr, ?_⟩
  intro statExists c
  unfold ServerConfig.check
  dsimp only
  rw [hfold, hfold]

end Goserve
